import Mathlib

/-!
Verification of the `ApiGatewayRouter` routing engine.

The embedding mirrors the TypeScript source: `RoutingRule`, `IncomingRequest`
and `RoutingResult` are the source interfaces; optional string fields are
`Option String` and JavaScript truthiness (`undefined` and `""` are falsy) is
made explicit by `strTruthy`.  JavaScript string primitives used by the code
(`startsWith`, `substring(n)`, `toUpperCase`, `===`, `.length`) are modelled
on the character list of a Lean `String`.  `Array.prototype.sort` with a
comparator is stable (ECMAScript 2019), so `_sortRules` is modelled by the
stable `List.mergeSort` ordered by "comparator result ≤ 0".
-/

namespace Gateway

/-- JavaScript truthiness of an optional string field: `undefined` (here
`none`) and the empty string are falsy, every other string is truthy. -/
def strTruthy : Option String → Bool
  | none => false
  | some s => !(s == "")

/-- Model of JavaScript `s.startsWith(pre)`: the characters of `pre` are a
prefix of the characters of `s`. -/
def jsStartsWith (s pre : String) : Bool :=
  pre.data.isPrefixOf s.data

/-- Model of JavaScript `s.substring(n)` (from index `n` to the end). -/
def jsSubstring (s : String) (n : Nat) : String :=
  ⟨s.data.drop n⟩

/-- Model of JavaScript `s.toUpperCase()`. -/
def jsToUpperCase (s : String) : String :=
  ⟨s.data.map Char.toUpper⟩

/-- `interface RoutingRule` of the source. -/
structure RoutingRule where
  id : String
  pathPrefix : Option String := none
  exactPath : Option String := none
  method : Option String := none
  targetService : String
  priority : Option Int := none
deriving Repr, DecidableEq

/-- `interface IncomingRequest` of the source.  The `headers` and `body`
fields are never inspected by the router and are omitted. -/
structure IncomingRequest where
  path : String
  method : String
deriving Repr, DecidableEq

/-- `interface RoutingResult` of the source. -/
structure RoutingResult where
  targetService : String
  targetPath : String
deriving Repr, DecidableEq

/-- `a.priority ?? 0` of the comparator in `_sortRules`. -/
def priorityOf (r : RoutingRule) : Int :=
  r.priority.getD 0

/-- `!!a.exactPath` of the comparator in `_sortRules` (JS truthiness). -/
def isExactRule (r : RoutingRule) : Bool :=
  strTruthy r.exactPath

/-- `a.exactPath || a.pathPrefix || ''` of the comparator in `_sortRules`:
the first truthy value, else the empty string. -/
def sortPath (r : RoutingRule) : String :=
  if strTruthy r.exactPath then r.exactPath.getD ""
  else if strTruthy r.pathPrefix then r.pathPrefix.getD ""
  else ""

/-- The comparator passed to `this._rules.sort` in `_sortRules`. -/
def ruleCompare (a b : RoutingRule) : Int :=
  if priorityOf b ≠ priorityOf a then priorityOf b - priorityOf a
  else if isExactRule a && !(isExactRule b) then -1
  else if !(isExactRule a) && isExactRule b then 1
  else if ((sortPath b).length : Int) ≠ ((sortPath a).length : Int) then
    ((sortPath b).length : Int) - ((sortPath a).length : Int)
  else 0

/-- "`a` comes no later than `b`" under the comparator: `sort` with a
consistent comparator places `a` before `b` exactly when the comparator is
non-positive, ties being broken by original position (stable sort). -/
def ruleLE (a b : RoutingRule) : Bool :=
  ruleCompare a b ≤ 0

/-- `_sortRules`: stable sort of the rule list by the comparator. -/
def sortRules (rules : List RoutingRule) : List RoutingRule :=
  rules.mergeSort ruleLE

/-- `class ApiGatewayRouter`: its only state is the private `_rules` list. -/
structure ApiGatewayRouter where
  _rules : List RoutingRule
deriving Repr, DecidableEq

/-- `updateRules`: replace `_rules` with a copy of the new list and sort it.
The previous state is discarded entirely. -/
def ApiGatewayRouter.updateRules (_router : ApiGatewayRouter) (newRules : List RoutingRule) : ApiGatewayRouter :=
  ⟨sortRules newRules⟩

/-- The constructor: initialize `_rules` to `[]`, then `updateRules(rules)`. -/
def mkApiGatewayRouter (rules : List RoutingRule) : ApiGatewayRouter :=
  ApiGatewayRouter.updateRules ⟨[]⟩ rules

/-- The prefix-stripping computation of `routeRequest`:
`request.path.substring(rule.pathPrefix.length)`, then the empty remainder
becomes `/`, a remainder not starting with `/` gets `/` prepended, and any
other remainder is used unchanged. -/
def stripToTarget (pre path : String) : String :=
  let strippedPath := jsSubstring path pre.length
  if strippedPath == "" then "/"
  else if !(jsStartsWith strippedPath "/") then "/" ++ strippedPath
  else strippedPath

/-- The `for (const rule of this._rules)` loop body of `routeRequest`,
expressed by recursion over the rule list. -/
def routeRules : List RoutingRule → IncomingRequest → Option RoutingResult
  | [], _ => none
  | rule :: rest, request =>
    if strTruthy rule.method
        && !(jsToUpperCase (rule.method.getD "") == jsToUpperCase request.method) then
      routeRules rest request
    else if strTruthy rule.exactPath then
      if request.path == rule.exactPath.getD "" then
        some { targetService := rule.targetService, targetPath := request.path }
      else
        routeRules rest request
    else if strTruthy rule.pathPrefix then
      if jsStartsWith request.path (rule.pathPrefix.getD "") then
        some { targetService := rule.targetService,
               targetPath := stripToTarget (rule.pathPrefix.getD "") request.path }
      else
        routeRules rest request
    else
      routeRules rest request

/-- `routeRequest`: scan the sorted rules, first match wins, else `null`. -/
def ApiGatewayRouter.routeRequest (router : ApiGatewayRouter) (request : IncomingRequest) : Option RoutingResult :=
  routeRules router._rules request

/-- State-passing form of `routeRequest`: the method body contains no
assignment to `this._rules`, so the outgoing state is the incoming state. -/
def ApiGatewayRouter.routeRequestSt (router : ApiGatewayRouter) (request : IncomingRequest) :
    Option RoutingResult × ApiGatewayRouter :=
  (routeRules router._rules request, router)

/-! Specification-side predicates, read off from the branch structure of
`routeRequest`: the per-rule method filter, the per-rule path test, and the
result built from a matching rule. -/

/-- A rule passes the method filter for a request: the negation of the
`continue` guard `rule.method && rule.method.toUpperCase() !== request.method.toUpperCase()`. -/
def methodOk (rule : RoutingRule) (request : IncomingRequest) : Bool :=
  !(strTruthy rule.method
      && !(jsToUpperCase (rule.method.getD "") == jsToUpperCase request.method))

/-- A rule passes the path test for a request: exact-path equality when
`exactPath` is truthy, else prefix match when `pathPrefix` is truthy, else
no match. -/
def pathOk (rule : RoutingRule) (request : IncomingRequest) : Bool :=
  if strTruthy rule.exactPath then request.path == rule.exactPath.getD ""
  else if strTruthy rule.pathPrefix then jsStartsWith request.path (rule.pathPrefix.getD "")
  else false

/-- The result `routeRequest` builds from a rule that passed the path test. -/
def matchResult (rule : RoutingRule) (request : IncomingRequest) : RoutingResult :=
  if strTruthy rule.exactPath then
    { targetService := rule.targetService, targetPath := request.path }
  else
    { targetService := rule.targetService,
      targetPath := stripToTarget (rule.pathPrefix.getD "") request.path }

/-- The sort order stated by the specification: priority descending (missing
priority read as 0); then the exact-path class above the prefix class; then
the length of the governing path string, descending. -/
def specLE (a b : RoutingRule) : Prop :=
  priorityOf b < priorityOf a
    ∨ (priorityOf a = priorityOf b
        ∧ ((isExactRule a = true ∧ isExactRule b = false)
            ∨ (isExactRule a = isExactRule b
                ∧ (sortPath b).length ≤ (sortPath a).length)))

/-- Two rules tie under all three discriminating sort criteria. -/
def specTied (a b : RoutingRule) : Prop :=
  priorityOf a = priorityOf b
    ∧ isExactRule a = isExactRule b
    ∧ (sortPath a).length = (sortPath b).length

instance (a b : RoutingRule) : Decidable (specLE a b) := by
  unfold specLE; infer_instance

instance (a b : RoutingRule) : Decidable (specTied a b) := by
  unfold specTied; infer_instance

/-- Replacing the `""` value of an optional string field by an absent field. -/
def normField : Option String → Option String
  | some s => if s == "" then none else some s
  | none => none

/-- Normalizing a rule: every optional string field equal to `""` becomes
absent. -/
def normRule (r : RoutingRule) : RoutingRule :=
  { r with
    method := normField r.method
    exactPath := normField r.exactPath
    pathPrefix := normField r.pathPrefix }

/-- Overwriting the `pathPrefix` of a rule whose `exactPath` is truthy. -/
def setPrefixIfExact (p : Option String) (r : RoutingRule) : RoutingRule :=
  if isExactRule r then { r with pathPrefix := p } else r

/-! Concrete rules used by witnesses and examples. -/

/-- A rule with a truthy exact path. -/
def sampleExactRule : RoutingRule :=
  { id := "r-exact", exactPath := some "/admin", targetService := "admin-svc",
    priority := some 5 }

/-- A rule with a truthy path prefix. -/
def sampleUsersRule : RoutingRule :=
  { id := "r-users", pathPrefix := some "/users", targetService := "users-svc" }

/-- A rule with both `exactPath` and `pathPrefix` truthy. -/
def sampleBothRule : RoutingRule :=
  { id := "r-both", exactPath := some "/health", pathPrefix := some "/hea",
    targetService := "health-svc" }

/-- A rule with a method filter. -/
def sampleGetRule : RoutingRule :=
  { id := "r-get", pathPrefix := some "/", method := some "GET",
    targetService := "get-svc" }

/-- An exact-path rule for the root path. -/
def rootExactRule : RoutingRule :=
  { id := "r-root-exact", exactPath := some "/", targetService := "root-svc" }

/-- A prefix rule for the root path. -/
def rootPrefixRule : RoutingRule :=
  { id := "r-root-pre", pathPrefix := some "/", targetService := "catchall-svc" }

end Gateway

namespace Gateway

/-- The specificity class of a rule as a number: 0 for the exact-path class,
1 for the prefix class. -/
def rankOf (r : RoutingRule) : Nat :=
  if isExactRule r then 0 else 1

theorem specLE_iff_key (a b : RoutingRule) :
    specLE a b ↔
      (priorityOf b < priorityOf a
        ∨ (priorityOf a = priorityOf b
            ∧ (rankOf a < rankOf b
                ∨ (rankOf a = rankOf b ∧ (sortPath b).length ≤ (sortPath a).length)))) := by
  unfold specLE rankOf
  cases isExactRule a <;> cases isExactRule b <;> simp

theorem ruleLE_iff_specLE (a b : RoutingRule) : ruleLE a b = true ↔ specLE a b := by
  simp only [ruleLE, ruleCompare, specLE, decide_eq_true_eq]
  cases ha : isExactRule a <;> cases hb : isExactRule b <;>
    simp only [Bool.true_and, Bool.false_and, Bool.and_true, Bool.and_false,
      Bool.not_true, Bool.not_false, Bool.true_eq_false, Bool.false_eq_true,
      if_true, if_false, false_and, true_and, and_false, and_true, false_or,
      or_false] <;>
    split_ifs <;> omega

theorem specLE_total (a b : RoutingRule) : specLE a b ∨ specLE b a := by
  rw [specLE_iff_key, specLE_iff_key]
  omega

theorem specLE_trans (a b c : RoutingRule) (hab : specLE a b) (hbc : specLE b c) :
    specLE a c := by
  rw [specLE_iff_key] at *
  omega

theorem ruleLE_total (a b : RoutingRule) : ruleLE a b || ruleLE b a := by
  rcases specLE_total a b with h | h
  · simp [ruleLE_iff_specLE, h]
  · simp [ruleLE_iff_specLE, h]

theorem ruleLE_trans (a b c : RoutingRule) (hab : ruleLE a b) (hbc : ruleLE b c) :
    ruleLE a c := by
  rw [ruleLE_iff_specLE] at *
  exact specLE_trans a b c hab hbc

theorem specTied_ruleLE (a b : RoutingRule) (h : specTied a b) : ruleLE a b = true := by
  rw [ruleLE_iff_specLE]
  obtain ⟨h1, h2, h3⟩ := h
  exact Or.inr ⟨h1, Or.inr ⟨h2, h3.ge⟩⟩

end Gateway

namespace Gateway

theorem routeRules_eq_find (rules : List RoutingRule) (request : IncomingRequest) :
    routeRules rules request =
      (rules.find? fun r => methodOk r request && pathOk r request).map
        (fun r => matchResult r request) := by
  induction rules with
  | nil => rfl
  | cons rule rest ih =>
    rw [routeRules]
    by_cases hm : (strTruthy rule.method
        && !(jsToUpperCase (rule.method.getD "") == jsToUpperCase request.method)) = true
    · have hok : methodOk rule request = false := by
        simp [methodOk, hm]
      rw [if_pos hm, List.find?_cons_of_neg, ih]
      simp [hok]
    · have hok : methodOk rule request = true := by
        simp only [methodOk, hm]; rfl
      rw [if_neg hm]
      by_cases he : strTruthy rule.exactPath = true
      · by_cases hp : (request.path == rule.exactPath.getD "") = true
        · rw [if_pos he, if_pos hp, List.find?_cons_of_pos]
          · simp [matchResult, he]
          · simp [hok, pathOk, he, hp]
        · rw [if_pos he, if_neg hp, List.find?_cons_of_neg, ih]
          simp [pathOk, he, hp]
      · rw [if_neg he]
        by_cases hpre : strTruthy rule.pathPrefix = true
        · by_cases hsw : jsStartsWith request.path (rule.pathPrefix.getD "") = true
          · rw [if_pos hpre, if_pos hsw, List.find?_cons_of_pos]
            · simp [matchResult, he]
            · simp [hok, pathOk, he, hpre, hsw]
          · rw [if_pos hpre, if_neg hsw, List.find?_cons_of_neg, ih]
            simp [pathOk, he, hpre, hsw]
        · rw [if_neg hpre, List.find?_cons_of_neg, ih]
          simp [pathOk, he, hpre]

end Gateway

namespace Gateway

theorem jsSubstring_append (p r : String) : jsSubstring (p ++ r) p.length = r := by
  show String.mk ((p ++ r).data.drop p.length) = r
  rw [String.data_append]
  show String.mk ((p.data ++ r.data).drop p.data.length) = r
  rw [List.drop_left]

theorem jsStartsWith_append (p r : String) : jsStartsWith (p ++ r) p = true := by
  show p.data.isPrefixOf (p ++ r).data = true
  rw [String.data_append, List.isPrefixOf_iff_prefix]
  exact List.prefix_append p.data r.data

theorem jsStartsWith_iff (s pre : String) :
    jsStartsWith s pre = true ↔ ∃ r : String, s = pre ++ r := by
  constructor
  · intro h
    rw [jsStartsWith, List.isPrefixOf_iff_prefix] at h
    obtain ⟨t, ht⟩ := h
    refine ⟨⟨t⟩, ?_⟩
    apply String.ext
    rw [String.data_append]
    exact ht.symm
  · rintro ⟨r, rfl⟩
    exact jsStartsWith_append pre r

theorem stripToTarget_append (pre rem : String) :
    stripToTarget pre (pre ++ rem) =
      (if rem = "" then "/"
       else if jsStartsWith rem "/" then rem else "/" ++ rem) := by
  rw [stripToTarget]
  show (if (jsSubstring (pre ++ rem) pre.length) == "" then "/" else _) = _
  rw [jsSubstring_append]
  by_cases h : rem = ""
  · simp [h]
  · have h' : (rem == "") = false := by simp [h]
    simp only [h', if_false, if_neg h, Bool.false_eq_true]
    by_cases hs : jsStartsWith rem "/" = true
    · simp [hs]
    · simp [hs]

theorem jsStartsWith_slash_stripToTarget (pre path : String) :
    jsStartsWith (stripToTarget pre path) "/" = true := by
  rw [stripToTarget]
  set s := jsSubstring path pre.length with hs
  by_cases h0 : (s == "") = true
  · simp [h0]; decide
  · simp only [h0, Bool.false_eq_true, if_false]
    by_cases h1 : jsStartsWith s "/" = true
    · simp [h1]
    · simp only [h1, Bool.not_false, if_true, Bool.false_eq_true]
      exact jsStartsWith_append "/" s

end Gateway

namespace Gateway

theorem strTruthy_normField (o : Option String) : strTruthy (normField o) = strTruthy o := by
  rcases o with _ | s
  · rfl
  · by_cases h : (s == "") = true
    · simp [normField, strTruthy, h]
    · simp only [normField, strTruthy, h, Bool.false_eq_true, if_false]

theorem normField_getD_of_truthy (o : Option String) (h : strTruthy o = true) :
    (normField o).getD "" = o.getD "" := by
  rcases o with _ | s
  · rfl
  · have hne : (s == "") = false := by
      simp only [strTruthy, Bool.not_eq_true'] at h
      exact h
    simp [normField, hne]

theorem normRule_ruleLE (a b : RoutingRule) : ruleLE (normRule a) (normRule b) = ruleLE a b := by
  have hfield : ∀ r : RoutingRule, isExactRule (normRule r) = isExactRule r := by
    intro r
    simp [isExactRule, normRule, strTruthy_normField]
  have hpri : ∀ r : RoutingRule, priorityOf (normRule r) = priorityOf r := by
    intro r
    rfl
  have hpath : ∀ r : RoutingRule, sortPath (normRule r) = sortPath r := by
    intro r
    simp only [sortPath, normRule, strTruthy_normField]
    by_cases he : strTruthy r.exactPath = true
    · simp [he, normField_getD_of_truthy _ he]
    · simp only [he]
      by_cases hp : strTruthy r.pathPrefix = true
      · simp [hp, normField_getD_of_truthy _ hp]
      · simp [hp]
  simp [ruleLE, ruleCompare, hfield, hpri, hpath]

end Gateway

namespace Gateway

theorem methodOk_normRule (r : RoutingRule) (request : IncomingRequest) :
    methodOk (normRule r) request = methodOk r request := by
  simp only [methodOk, normRule, strTruthy_normField]
  by_cases h : strTruthy r.method = true
  · rw [normField_getD_of_truthy _ h]
  · simp only [Bool.not_eq_true] at h
    simp [h]

theorem pathOk_normRule (r : RoutingRule) (request : IncomingRequest) :
    pathOk (normRule r) request = pathOk r request := by
  simp only [pathOk, normRule, strTruthy_normField]
  by_cases he : strTruthy r.exactPath = true
  · simp [he, normField_getD_of_truthy _ he]
  · simp only [he, Bool.false_eq_true, if_false]
    by_cases hp : strTruthy r.pathPrefix = true
    · simp [he, hp, normField_getD_of_truthy _ hp]
    · simp [he, hp]

theorem matchResult_normRule (r : RoutingRule) (request : IncomingRequest) :
    matchResult (normRule r) request = matchResult r request := by
  simp only [matchResult, normRule, strTruthy_normField]
  by_cases he : strTruthy r.exactPath = true
  · simp [he]
  · simp only [he, Bool.false_eq_true, if_false]
    by_cases hp : strTruthy r.pathPrefix = true
    · simp [normField_getD_of_truthy _ hp]
    · rcases hnone : r.pathPrefix with _ | s
      · rfl
      · have : (s == "") = true := by
          simp only [strTruthy, hnone, Bool.not_eq_true, Bool.not_eq_false] at hp
          simpa using hp
        have hs : s = "" := by simpa using this
        simp [normField, this, hnone, hs]

theorem routeRules_map_normRule (rules : List RoutingRule) (request : IncomingRequest) :
    routeRules (rules.map normRule) request = routeRules rules request := by
  rw [routeRules_eq_find, routeRules_eq_find, List.find?_map]
  have hpred : (fun r => methodOk r request && pathOk r request) ∘ normRule
      = fun r => methodOk r request && pathOk r request := by
    funext r
    simp [Function.comp, methodOk_normRule, pathOk_normRule]
  rw [hpred, Option.map_map]
  have hres : ((fun r => matchResult r request) ∘ normRule)
      = fun r => matchResult r request := by
    funext r
    simp [Function.comp, matchResult_normRule]
  rw [hres]

theorem sortRules_map_normRule (rules : List RoutingRule) :
    sortRules (rules.map normRule) = (sortRules rules).map normRule := by
  unfold sortRules
  exact (List.map_mergeSort (fun a _ b _ => (normRule_ruleLE a b).symm)).symm

end Gateway

namespace Gateway

theorem setPrefixIfExact_exactPath (p : Option String) (r : RoutingRule) :
    (setPrefixIfExact p r).exactPath = r.exactPath := by
  unfold setPrefixIfExact
  split <;> rfl

theorem setPrefixIfExact_isExact (p : Option String) (r : RoutingRule) :
    isExactRule (setPrefixIfExact p r) = isExactRule r := by
  simp [isExactRule, strTruthy, setPrefixIfExact_exactPath]

theorem setPrefixIfExact_sortPath (p : Option String) (r : RoutingRule) :
    sortPath (setPrefixIfExact p r) = sortPath r := by
  unfold setPrefixIfExact
  by_cases h : isExactRule r = true
  · have he : strTruthy r.exactPath = true := h
    simp [sortPath, h, he]
  · simp [h]

theorem setPrefixIfExact_ruleLE (p : Option String) (a b : RoutingRule) :
    ruleLE (setPrefixIfExact p a) (setPrefixIfExact p b) = ruleLE a b := by
  have hpri : ∀ r : RoutingRule, priorityOf (setPrefixIfExact p r) = priorityOf r := by
    intro r
    unfold setPrefixIfExact priorityOf
    split <;> rfl
  simp [ruleLE, ruleCompare, setPrefixIfExact_isExact, setPrefixIfExact_sortPath, hpri]

theorem methodOk_setPrefixIfExact (p : Option String) (r : RoutingRule) (request : IncomingRequest) :
    methodOk (setPrefixIfExact p r) request = methodOk r request := by
  unfold setPrefixIfExact
  split <;> rfl

theorem pathOk_setPrefixIfExact (p : Option String) (r : RoutingRule) (request : IncomingRequest) :
    pathOk (setPrefixIfExact p r) request = pathOk r request := by
  by_cases h : isExactRule r = true
  · have he : strTruthy r.exactPath = true := h
    simp [pathOk, setPrefixIfExact, h, he]
  · simp [setPrefixIfExact, h]

theorem matchResult_setPrefixIfExact (p : Option String) (r : RoutingRule) (request : IncomingRequest) :
    matchResult (setPrefixIfExact p r) request = matchResult r request := by
  by_cases h : isExactRule r = true
  · have he : strTruthy r.exactPath = true := h
    simp [matchResult, setPrefixIfExact, h, he]
  · simp [setPrefixIfExact, h]

theorem routeRules_map_setPrefixIfExact (p : Option String) (rules : List RoutingRule) (request : IncomingRequest) :
    routeRules (rules.map (setPrefixIfExact p)) request = routeRules rules request := by
  rw [routeRules_eq_find, routeRules_eq_find, List.find?_map]
  have hpred : (fun r => methodOk r request && pathOk r request) ∘ setPrefixIfExact p
      = fun r => methodOk r request && pathOk r request := by
    funext r
    simp [Function.comp, methodOk_setPrefixIfExact, pathOk_setPrefixIfExact]
  rw [hpred, Option.map_map]
  have hres : ((fun r => matchResult r request) ∘ setPrefixIfExact p)
      = fun r => matchResult r request := by
    funext r
    simp [Function.comp, matchResult_setPrefixIfExact]
  rw [hres]

theorem sortRules_map_setPrefixIfExact (p : Option String) (rules : List RoutingRule) :
    sortRules (rules.map (setPrefixIfExact p)) = (sortRules rules).map (setPrefixIfExact p) := by
  unfold sortRules
  exact (List.map_mergeSort (fun a _ b _ => (setPrefixIfExact_ruleLE p a b).symm)).symm

end Gateway

namespace Gateway

/-- Two prefix rules tied under every sort criterion, for the stability witness. -/
def sampleTiedA : RoutingRule :=
  { id := "r-tied-a", pathPrefix := some "/aaa", targetService := "a-svc" }

/-- Second rule of the tied pair. -/
def sampleTiedB : RoutingRule :=
  { id := "r-tied-b", pathPrefix := some "/bbb", targetService := "b-svc" }

/-- A rule whose optional string fields are present but empty. -/
def sampleEmptyRule : RoutingRule :=
  { id := "r-empty", exactPath := some "", pathPrefix := some "/e",
    method := some "", targetService := "e-svc" }

/-- C1: for every rule set and request, `routeRequest` returns the
`targetService` and computed forwarded path of the first rule in the rule
list that passes both the method filter and the path test, and `none` when
no rule passes both. -/
theorem routeRequest_first_match (router : ApiGatewayRouter) (request : IncomingRequest) :
    router.routeRequest request =
      (router._rules.find? fun r => methodOk r request && pathOk r request).map
        (fun r => matchResult r request) :=
  routeRules_eq_find router._rules request

/-- C2: construction and `updateRules` produce the same rule list, sorted by
the order "priority descending (missing read as 0), then the truthy-exact
class above the prefix class, then descending length of the governing path
string", it is a permutation of the input, and rules tied under all three
criteria keep their original relative order (stability). -/
theorem rules_sorted_spec (old : ApiGatewayRouter) (rules : List RoutingRule) :
    (mkApiGatewayRouter rules)._rules = sortRules rules
    ∧ (old.updateRules rules)._rules = sortRules rules
    ∧ List.Pairwise specLE (sortRules rules)
    ∧ List.Perm (sortRules rules) rules
    ∧ (∀ a b : RoutingRule, List.Sublist [a, b] rules → specTied a b →
        List.Sublist [a, b] (sortRules rules)) := by
  refine ⟨rfl, rfl, ?_, ?_, ?_⟩
  · exact (List.sorted_mergeSort ruleLE_trans ruleLE_total rules).imp
      (fun hab => (ruleLE_iff_specLE _ _).mp hab)
  · exact List.mergeSort_perm rules ruleLE
  · intro a b hsub htied
    exact List.pair_sublist_mergeSort ruleLE_trans ruleLE_total
      (specTied_ruleLE a b htied) hsub

/-- C2 witness at a concrete tied pair of rules. -/
theorem rules_sorted_spec_witness :
    (mkApiGatewayRouter [sampleTiedA, sampleTiedB])._rules
        = sortRules [sampleTiedA, sampleTiedB]
    ∧ List.Sublist [sampleTiedA, sampleTiedB] (sortRules [sampleTiedA, sampleTiedB]) :=
  ⟨(rules_sorted_spec ⟨[]⟩ [sampleTiedA, sampleTiedB]).1,
   (rules_sorted_spec ⟨[]⟩ [sampleTiedA, sampleTiedB]).2.2.2.2 sampleTiedA sampleTiedB
     (List.Sublist.refl _) (by decide)⟩

end Gateway

namespace Gateway

/-- C3: a rule matching by exact path forwards the request path unchanged; a
rule matching by path prefix forwards the path with the prefix removed from
the front, where an empty remainder becomes "/", a remainder not starting
with "/" gets "/" prepended, and a remainder starting with "/" is kept; in
particular "/users" against "/users/123/profile" forwards "/123/profile" and
against "/users" forwards "/". -/
theorem forwarded_path_spec :
    (∀ (rule : RoutingRule) (request : IncomingRequest),
        isExactRule rule = true → pathOk rule request = true →
        (matchResult rule request).targetPath = request.path)
    ∧ (∀ (rule : RoutingRule) (pre rem : String) (request : IncomingRequest),
        isExactRule rule = false → rule.pathPrefix = some pre → pre ≠ "" →
        request.path = pre ++ rem →
        pathOk rule request = true
          ∧ (matchResult rule request).targetPath =
              (if rem = "" then "/" else if jsStartsWith rem "/" then rem else "/" ++ rem))
    ∧ (mkApiGatewayRouter [sampleUsersRule]).routeRequest ⟨"/users/123/profile", "GET"⟩
        = some ⟨"users-svc", "/123/profile"⟩
    ∧ (mkApiGatewayRouter [sampleUsersRule]).routeRequest ⟨"/users", "GET"⟩
        = some ⟨"users-svc", "/"⟩ := by
  refine ⟨?_, ?_, ?_, ?_⟩
  · intro rule request he hp
    simp [matchResult, isExactRule] at he ⊢
    simp [he]
  · intro rule pre rem request he hpre hne hpath
    have htru : strTruthy rule.pathPrefix = true := by
      simp only [hpre, strTruthy, Bool.not_eq_true']
      simpa using hne
    have hgd : rule.pathPrefix.getD "" = pre := by simp [hpre]
    have hexact : strTruthy rule.exactPath = false := he
    constructor
    · simp only [pathOk, hexact, Bool.false_eq_true, if_false, htru, if_true, hgd, hpath]
      exact jsStartsWith_append pre rem
    · simp only [matchResult, hexact, Bool.false_eq_true, if_false, hgd, hpath]
      exact stripToTarget_append pre rem
  · show routeRules (sortRules [sampleUsersRule]) _ = _
    rw [sortRules, List.mergeSort_singleton]
    decide
  · show routeRules (sortRules [sampleUsersRule]) _ = _
    rw [sortRules, List.mergeSort_singleton]
    decide

/-- C3 witness: the general prefix clause applied at prefix "/users",
remainder "/123/profile". -/
theorem forwarded_path_spec_witness :
    pathOk sampleUsersRule { path := "/users/123/profile", method := "GET" } = true
    ∧ (matchResult sampleUsersRule
        { path := "/users/123/profile", method := "GET" }).targetPath
        = (if "/123/profile" = "" then "/"
           else if jsStartsWith "/123/profile" "/" then "/123/profile"
           else "/" ++ "/123/profile") :=
  forwarded_path_spec.2.1 sampleUsersRule "/users" "/123/profile"
    { path := "/users/123/profile", method := "GET" }
    (by decide) (by decide) (by decide) (by decide)

/-- C4: when a rule's `exactPath` is truthy, the path test is exact-path
equality alone — a request merely starting with the rule's `pathPrefix` but
differing from `exactPath` does not match — and overwriting the
`pathPrefix` of every such rule with any value changes no routing result. -/
theorem both_fields_exact_wins (rule : RoutingRule) (request : IncomingRequest)
    (he : strTruthy rule.exactPath = true) :
    pathOk rule request = (request.path == rule.exactPath.getD "")
    ∧ (strTruthy rule.pathPrefix = true →
        jsStartsWith request.path (rule.pathPrefix.getD "") = true →
        request.path ≠ rule.exactPath.getD "" →
        pathOk rule request = false)
    ∧ (∀ (p : Option String) (rules : List RoutingRule),
        (mkApiGatewayRouter (rules.map (setPrefixIfExact p))).routeRequest request
          = (mkApiGatewayRouter rules).routeRequest request) := by
  refine ⟨?_, ?_, ?_⟩
  · simp [pathOk, he]
  · intro _ _ hne
    simp [pathOk, he, hne]
  · intro p rules
    show routeRules (sortRules (rules.map (setPrefixIfExact p))) request
        = routeRules (sortRules rules) request
    rw [sortRules_map_setPrefixIfExact, routeRules_map_setPrefixIfExact]

/-- C4 witness: the rule with exact path "/health" and prefix "/hea" does
not match "/hea/x" although "/hea" is a prefix of it. -/
theorem both_fields_exact_wins_witness :
    pathOk sampleBothRule { path := "/hea/x", method := "GET" } = false :=
  (both_fields_exact_wins sampleBothRule { path := "/hea/x", method := "GET" }
      (by decide)).2.1 (by decide) (by decide) (by decide)

/-- C5: `updateRules` fully replaces routing behavior — routing after
`updateRules rs` equals routing on a router freshly constructed with `rs`,
for every previous state. -/
theorem updateRules_replaces (old : ApiGatewayRouter) (rs : List RoutingRule)
    (request : IncomingRequest) :
    (old.updateRules rs).routeRequest request
      = (mkApiGatewayRouter rs).routeRequest request :=
  rfl

/-- C6: the method filter is case-insensitive and optional — a truthy rule
method passes exactly when the two methods agree after upper-casing, an
absent (or empty) method always passes, and a rule failing the filter is
skipped by the scan. -/
theorem method_filter_spec (rule : RoutingRule) (request : IncomingRequest) :
    (strTruthy rule.method = true →
      (methodOk rule request = true ↔
        jsToUpperCase (rule.method.getD "") = jsToUpperCase request.method))
    ∧ (strTruthy rule.method = false → methodOk rule request = true)
    ∧ (∀ rest : List RoutingRule, methodOk rule request = false →
        routeRules (rule :: rest) request = routeRules rest request) := by
  refine ⟨?_, ?_, ?_⟩
  · intro h
    simp [methodOk, h]
  · intro h
    simp [methodOk, h]
  · intro rest h
    have : (strTruthy rule.method
        && !(jsToUpperCase (rule.method.getD "") == jsToUpperCase request.method)) = true := by
      simpa [methodOk] using h
    rw [routeRules, if_pos this]

/-- C6 witness: a rule with method "GET" passes the filter for a request
with method "get". -/
theorem method_filter_spec_witness :
    methodOk sampleGetRule { path := "/x", method := "get" } = true :=
  ((method_filter_spec sampleGetRule { path := "/x", method := "get" }).1
      (by decide)).mpr (by decide)

/-- C7: with an empty rule list — at construction or via `updateRules` —
`routeRequest` returns `none` for every request, including path "/". -/
theorem empty_rules_no_match (old : ApiGatewayRouter) (request : IncomingRequest) :
    (mkApiGatewayRouter []).routeRequest request = none
    ∧ (old.updateRules []).routeRequest request = none
    ∧ (mkApiGatewayRouter []).routeRequest { path := "/", method := request.method } = none := by
  refine ⟨?_, ?_, ?_⟩ <;>
    · show routeRules (sortRules []) _ = none
      rw [sortRules, List.mergeSort_nil]
      rfl

end Gateway

namespace Gateway

/-- C8 counterexample: a prefix rule for "/" does not match every request
path — the request with path "abc" (no leading "/") gets no match. -/
theorem root_prefix_rule_counterexample :
    (mkApiGatewayRouter [rootPrefixRule]).routeRequest { path := "abc", method := "GET" }
      = none := by
  show routeRules (sortRules [rootPrefixRule]) _ = none
  rw [sortRules, List.mergeSort_singleton]
  decide

/-- C8 as amended: an exact-path rule for "/" matches only the literal path
"/"; a prefix rule for "/" matches exactly the request paths that start
with "/" — "/" itself and any sub-path — and on a match its forwarded path
begins with "/", with path "/" stripping to "/". -/
theorem root_path_rules_spec (rule : RoutingRule) (request : IncomingRequest)
    (hno : rule.exactPath = none) (hpre : rule.pathPrefix = some "/") :
    (∀ r' : RoutingRule, r'.exactPath = some "/" →
        (pathOk r' request = true ↔ request.path = "/"))
    ∧ pathOk rule request = jsStartsWith request.path "/"
    ∧ (pathOk rule request = true →
        jsStartsWith (matchResult rule request).targetPath "/" = true)
    ∧ (request.path = "/" → (matchResult rule request).targetPath = "/") := by
  have hexact : strTruthy rule.exactPath = false := by rw [hno]; rfl
  have htru : strTruthy rule.pathPrefix = true := by rw [hpre]; rfl
  refine ⟨?_, ?_, ?_, ?_⟩
  · intro r' h'
    have hs : strTruthy (some "/") = true := by decide
    simp [pathOk, h', hs]
  · have hs : strTruthy (some "/") = true := by decide
    simp [pathOk, hexact, hpre, hs]
  · intro _
    simp only [matchResult, hexact, Bool.false_eq_true, if_false]
    exact jsStartsWith_slash_stripToTarget _ _
  · intro hpath
    simp only [matchResult, hexact, Bool.false_eq_true, if_false, hpre, hpath]
    decide

/-- C8 witness: the root prefix rule on the request paths "/" and
"/users/1". -/
theorem root_path_rules_spec_witness :
    pathOk rootPrefixRule { path := "/users/1", method := "GET" }
        = jsStartsWith "/users/1" "/"
    ∧ (matchResult rootPrefixRule { path := "/", method := "GET" }).targetPath = "/" :=
  ⟨(root_path_rules_spec rootPrefixRule { path := "/users/1", method := "GET" }
      (by decide) (by decide)).2.1,
   (root_path_rules_spec rootPrefixRule { path := "/", method := "GET" }
      (by decide) (by decide)).2.2.2 (by decide)⟩

/-- C9: `routeRequest`, in state-passing form, leaves the rule state
unchanged and returns the same value on repeated invocation against the
same state; it agrees with the functional `routeRequest`. -/
theorem routeRequest_pure (router : ApiGatewayRouter) (request : IncomingRequest) :
    (router.routeRequestSt request).2 = router
    ∧ (router.routeRequestSt request).1 = router.routeRequest request
    ∧ (router.routeRequestSt request).1
        = (((router.routeRequestSt request).2).routeRequestSt request).1 :=
  ⟨rfl, rfl, rfl⟩

/-- C10: an empty-string optional field behaves as an absent one — an empty
method always passes the filter, an empty `exactPath` puts the rule in the
prefix class and the exact branch is never taken, and normalizing every
empty field to an absent one changes neither the sorted order nor any
routing result. -/
theorem empty_string_fields_spec (rule : RoutingRule) (rules : List RoutingRule)
    (request : IncomingRequest) :
    (rule.method = some "" → methodOk rule request = true)
    ∧ (rule.exactPath = some "" →
        isExactRule rule = false
          ∧ pathOk rule request
              = (strTruthy rule.pathPrefix
                  && jsStartsWith request.path (rule.pathPrefix.getD "")))
    ∧ sortRules (rules.map normRule) = (sortRules rules).map normRule
    ∧ (mkApiGatewayRouter (rules.map normRule)).routeRequest request
        = (mkApiGatewayRouter rules).routeRequest request := by
  refine ⟨?_, ?_, sortRules_map_normRule rules, ?_⟩
  · intro h
    have : strTruthy rule.method = false := by rw [h]; rfl
    simp [methodOk, this]
  · intro h
    have hexact : strTruthy rule.exactPath = false := by rw [h]; rfl
    refine ⟨hexact, ?_⟩
    by_cases hp : strTruthy rule.pathPrefix = true
    · simp [pathOk, hexact, hp]
    · simp only [Bool.not_eq_true] at hp
      simp [pathOk, hexact, hp]
  · show routeRules (sortRules (rules.map normRule)) request
        = routeRules (sortRules rules) request
    rw [sortRules_map_normRule, routeRules_map_normRule]

/-- C10 witness: a rule whose `method` and `exactPath` are present but
empty. -/
theorem empty_string_fields_spec_witness :
    methodOk sampleEmptyRule { path := "/e/1", method := "POST" } = true
    ∧ isExactRule sampleEmptyRule = false :=
  ⟨(empty_string_fields_spec sampleEmptyRule [] { path := "/e/1", method := "POST" }).1
      (by decide),
   ((empty_string_fields_spec sampleEmptyRule [] { path := "/e/1", method := "POST" }).2.1
      (by decide)).1⟩

end Gateway
